import Mathlib

/-!
Dockerfile linter rule set (`frontend/dockerfile/linter/ruleset.go`)

A shallow embedding of the fourteen `LinterRule` values declared in
`ruleset.go`, of the part of Go's `fmt.Sprintf` their `Format` closures use
(`%s`, `%q`, `%%` and literal text), and of `strconv.Quote`, which `%q`
prints a string operand with.

Go strings are byte sequences; they are lists of byte values here, and a
string literal of the source is the list of the bytes of its UTF-8 encoding.
-/

namespace Linter

/-- A Go string: its bytes in order. A byte is a number below 256; a theorem
stated for every list of numbers holds for every Go string. -/
abbrev GoString := List Nat

/-! ## `unicode/utf8` -/

/-- The constant `utf8.RuneError`. -/
def RuneError : Nat := 0xFFFD

/-- The constant `utf8.RuneSelf`: bytes below it are one-byte runes. -/
def RuneSelf : Nat := 0x80

/-- The constant `utf8.MaxRune`. -/
def MaxRune : Nat := 0x10FFFF

/-- Go's `utf8.ValidRune`: in range and not a surrogate half. -/
def ValidRune (r : Nat) : Bool :=
  if r < 0xD800 then true
  else if 0xDFFF < r ∧ r ≤ MaxRune then true
  else false

/-- Go's `utf8.AppendRune` on an empty buffer: the UTF-8 encoding of `r`. -/
def AppendRune (r : Nat) : GoString :=
  if r < RuneSelf then [r]
  else if r ≤ 0x7FF then [0xC0 + r / 64, 0x80 + r % 64]
  else if MaxRune < r ∨ (0xD800 ≤ r ∧ r ≤ 0xDFFF) then
    [0xE0 + RuneError / 4096, 0x80 + RuneError / 64 % 64, 0x80 + RuneError % 64]
  else if r ≤ 0xFFFF then [0xE0 + r / 4096, 0x80 + r / 64 % 64, 0x80 + r % 64]
  else [0xF0 + r / 262144, 0x80 + r / 4096 % 64, 0x80 + r / 64 % 64, 0x80 + r % 64]

/-- The table `first` of package utf8 joined with `acceptRanges`: for a lead
byte, the length of the sequence it starts and the inclusive range its second
byte must lie in; `none` for a byte that starts no multi-byte sequence. -/
def leadInfo (b : Nat) : Option (Nat × Nat × Nat) :=
  if 0xC2 ≤ b ∧ b ≤ 0xDF then some (2, 0x80, 0xBF)
  else if b = 0xE0 then some (3, 0xA0, 0xBF)
  else if 0xE1 ≤ b ∧ b ≤ 0xEC then some (3, 0x80, 0xBF)
  else if b = 0xED then some (3, 0x80, 0x9F)
  else if 0xEE ≤ b ∧ b ≤ 0xEF then some (3, 0x80, 0xBF)
  else if b = 0xF0 then some (4, 0x90, 0xBF)
  else if 0xF1 ≤ b ∧ b ≤ 0xF3 then some (4, 0x80, 0xBF)
  else if b = 0xF4 then some (4, 0x80, 0x8F)
  else none

/-- Whether `b` is a continuation byte (`locb ≤ b ≤ hicb`). -/
def isCont (b : Nat) : Bool := 0x80 ≤ b ∧ b ≤ 0xBF

/-- Go's `utf8.DecodeRuneInString`: the first rune of `s` and its width in
bytes; `(RuneError, 1)` for an invalid or truncated sequence and
`(RuneError, 0)` for the empty string. -/
def DecodeRuneInString (s : GoString) : Nat × Nat :=
  match s with
  | [] => (RuneError, 0)
  | s0 :: rest =>
    if s0 < RuneSelf then (s0, 1)
    else
      match leadInfo s0 with
      | none => (RuneError, 1)
      | some (sz, lo, hi) =>
        if rest.length + 1 < sz then (RuneError, 1)
        else
          match rest with
          | [] => (RuneError, 1)
          | s1 :: rest1 =>
            if s1 < lo ∨ hi < s1 then (RuneError, 1)
            else if sz ≤ 2 then ((s0 % 32) * 64 + s1 % 64, 2)
            else
              match rest1 with
              | [] => (RuneError, 1)
              | s2 :: rest2 =>
                if ! isCont s2 then (RuneError, 1)
                else if sz ≤ 3 then ((s0 % 16) * 4096 + (s1 % 64) * 64 + s2 % 64, 3)
                else
                  match rest2 with
                  | [] => (RuneError, 1)
                  | s3 :: _ =>
                    if ! isCont s3 then (RuneError, 1)
                    else ((s0 % 8) * 262144 + (s1 % 64) * 4096 + (s2 % 64) * 64 + s3 % 64, 4)

/-! ## `strconv` -/

/-- The digit string `lowerhex` of strconv, indexed: `"0123456789abcdef"[n]`. -/
def lowerhex (n : Nat) : Nat := if n < 10 then 48 + n else 87 + n

/-- Go's `strconv.IsPrint`. Latin-1 is decided in the function body; above
`0xFF` the function searches the generated tables `isPrint16`, `isNotPrint16`,
`isPrint32` and `isNotPrint32`, which are the parameter `tab` here. -/
def IsPrint (tab : Nat → Bool) (r : Nat) : Bool :=
  if r ≤ 0xFF then
    if 0x20 ≤ r ∧ r ≤ 0x7E then true
    else if 0xA1 ≤ r ∧ r ≤ 0xFF then r != 0xAD
    else false
  else tab r

/-- The hexadecimal digits of `r` from bit `4 * n - 4` down to bit 0, as the
loops `for s := 12; s >= 0; s -= 4` and `for s := 28; ...` append them. -/
def hexDigits : Nat → Nat → GoString
  | 0, _ => []
  | n + 1, r => lowerhex (r / 16 ^ n % 16) :: hexDigits n r

/-- Go's `strconv.appendEscapedRune` with `quote = '"'`, `ASCIIonly = false`
and `graphicOnly = false`, on an empty buffer. -/
def appendEscapedRune (tab : Nat → Bool) (r : Nat) : GoString :=
  if r = 34 ∨ r = 92 then [92, r]
  else if IsPrint tab r then AppendRune r
  else if r = 7 then [92, 97]
  else if r = 8 then [92, 98]
  else if r = 12 then [92, 102]
  else if r = 10 then [92, 110]
  else if r = 13 then [92, 114]
  else if r = 9 then [92, 116]
  else if r = 11 then [92, 118]
  else if r < 32 ∨ r = 0x7F then [92, 120, lowerhex (r % 256 / 16), lowerhex (r % 16)]
  else if ! ValidRune r then 92 :: 117 :: hexDigits 4 RuneError
  else if r < 0x10000 then 92 :: 117 :: hexDigits 4 r
  else 92 :: 85 :: hexDigits 8 r

/-- The loop of `strconv.appendQuotedWith`. The Go loop advances by
`s = s[width:]`; here `skip` counts the bytes of the current rune that are
still to be passed over, so that the recursion is on the list itself. -/
def quoteLoop (tab : Nat → Bool) : Nat → GoString → GoString
  | _, [] => [34]
  | skip + 1, _ :: rest => quoteLoop tab skip rest
  | 0, b :: rest =>
    let rw := DecodeRuneInString (b :: rest)
    if rw.2 = 1 ∧ rw.1 = RuneError then
      [92, 120, lowerhex (b / 16), lowerhex (b % 16)] ++ quoteLoop tab 0 rest
    else
      appendEscapedRune tab rw.1 ++ quoteLoop tab (rw.2 - 1) rest

/-- Go's `strconv.Quote`: a double-quoted Go string literal for `s`. -/
def Quote (tab : Nat → Bool) (s : GoString) : GoString :=
  34 :: quoteLoop tab 0 s

/-! ## `fmt` -/

/-- The bytes of a string literal of the source (its UTF-8 encoding). -/
def lit (s : String) : GoString :=
  s.toList.flatMap (fun c => AppendRune c.toNat)

/-- The method `printArg` of fmt for a string operand and a verb without
flags: `%s` writes the operand, `%q` writes it quoted. Other verbs are
outside the modelled fragment and give `none`. -/
def printArg (tab : Nat → Bool) (verb : Nat) (arg : GoString) : Option GoString :=
  if verb = 115 then some arg
  else if verb = 113 then some (Quote tab arg)
  else none

/-- The method `doPrintf` of fmt for string operands: literal bytes are
copied, `%%` writes a percent sign, and `%s`, `%q` consume the next operand.
A directive with flags, width, precision or an argument index, another verb,
a missing operand or an operand left over is outside the modelled fragment
and gives `none`. -/
def doPrintf (tab : Nat → Bool) : GoString → List GoString → Option GoString
  | [], [] => some []
  | [], _ :: _ => none
  | c :: rest, args =>
    if c = 37 then
      match rest, args with
      | [], _ => none
      | v :: rest1, [] =>
        if v = 37 then (doPrintf tab rest1 []).map (fun out => 37 :: out) else none
      | v :: rest1, a :: as =>
        if v = 37 then (doPrintf tab rest1 (a :: as)).map (fun out => 37 :: out)
        else
          match printArg tab v a with
          | none => none
          | some x => (doPrintf tab rest1 as).map (fun out => x ++ out)
    else (doPrintf tab rest args).map (fun out => c :: out)

/-- Go's `fmt.Sprintf` on string operands. -/
def Sprintf (tab : Nat → Bool) (format : GoString) (a : List GoString) : Option GoString :=
  doPrintf tab format a

/-! ## The rule descriptors of `ruleset.go` -/

/-- Modelled from the spec: the struct type `LinterRule[F]`, whose declaration
is not in `ruleset.go`. Its fields are those that the composite literals of
`ruleset.go` set. `Format` is a Go func value, which may be nil: `none` is
nil. -/
structure LinterRule (F : Type) where
  /-- The field `NumericID`. -/
  NumericID : GoString
  /-- The field `Name`. -/
  Name : GoString
  /-- The field `Description`. -/
  Description : GoString
  /-- The field `URL`. -/
  URL : GoString
  /-- The field `Format`. -/
  Format : Option F

/-- A formatter without parameters, `func() string`. -/
abbrev Fmt0 := Option GoString

/-- A formatter with one parameter, `func(string) string`. -/
abbrev Fmt1 := GoString → Option GoString

/-- A formatter with two parameters, `func(string, string) string`. -/
abbrev Fmt2 := GoString → GoString → Option GoString

/-- The call `rule.Format()`; `none` when no message is returned. -/
def LinterRule.call0 (rule : LinterRule Fmt0) : Option GoString :=
  match rule.Format with
  | none => none
  | some f => f

/-- The call `rule.Format(a)`; `none` when no message is returned. -/
def LinterRule.call1 (rule : LinterRule Fmt1) (a : GoString) : Option GoString :=
  match rule.Format with
  | none => none
  | some f => f a

/-- The call `rule.Format(a, b)`; `none` when no message is returned. -/
def LinterRule.call2 (rule : LinterRule Fmt2) (a b : GoString) : Option GoString :=
  match rule.Format with
  | none => none
  | some f => f a b

/-- The variable `RuleStageNameCasing`. -/
def RuleStageNameCasing (tab : Nat → Bool) : LinterRule Fmt1 where
  NumericID := lit "0001"
  Name := lit "StageNameCasing"
  Description := lit "Stage names should be lowercase"
  URL := lit "http://docs.docker.com/go/build-rules/stage-name-casing"
  Format := some (fun stageName =>
    Sprintf tab (lit "Stage name '%s' should be lowercase") [stageName])

/-- The variable `RuleFromAsCasing`. -/
def RuleFromAsCasing (tab : Nat → Bool) : LinterRule Fmt2 where
  NumericID := lit "0002"
  Name := lit "FromAsCasing"
  Description := lit "The 'as' keyword should match the case of the 'from' keyword"
  URL := lit "http://docs.docker.com/go/build-rules/from-as-casing"
  Format := some (fun «from» as =>
    Sprintf tab (lit "'%s' and '%s' keywords' casing do not match") [as, «from»])

/-- The variable `RuleNoEmptyContinuations`. -/
def RuleNoEmptyContinuations : LinterRule Fmt0 where
  NumericID := lit "0003"
  Name := lit "NoEmptyContinuations"
  Description := lit "Empty continuation lines will become errors in a future release"
  URL := lit "http://docs.docker.com/go/build-rules/no-empty-continuations"
  Format := some (some (lit "Empty continuation line"))

/-- The variable `RuleConsistentInstuctionCasing`. -/
def RuleConsistentInstuctionCasing (tab : Nat → Bool) : LinterRule Fmt1 where
  NumericID := lit "0004"
  Name := lit "ConsistentInstructionCasing"
  Description := lit "Instructions should be in consistent casing (all lower or all upper)"
  URL := lit "http://docs.docker.com/go/build-rules/consistent-instruction-casing"
  Format := some (fun command =>
    Sprintf tab (lit "Command '%s' should be consistently cased") [command])

/-- The variable `RuleDuplicateStageName`. -/
def RuleDuplicateStageName (tab : Nat → Bool) : LinterRule Fmt1 where
  NumericID := lit "0005"
  Name := lit "DuplicateStageName"
  Description := lit "Stage names should be unique"
  URL := lit "http://docs.docker.com/go/build-rules/duplicate-stage-name"
  Format := some (fun stageName =>
    Sprintf tab (lit "Duplicate stage name %q, stage names should be unique") [stageName])

/-- The variable `RuleReservedStageName`. -/
def RuleReservedStageName (tab : Nat → Bool) : LinterRule Fmt1 where
  NumericID := lit "0006"
  Name := lit "ReservedStageName"
  Description := lit "Reserved words should not be used as stage names"
  URL := lit "http://docs.docker.com/go/build-rules/reserved-stage-name"
  Format := some (fun reservedStageName =>
    Sprintf tab (lit "%q is reserved and should not be ") [reservedStageName])

/-- The variable `RuleJSONArgsRecommended`. -/
def RuleJSONArgsRecommended (tab : Nat → Bool) : LinterRule Fmt1 where
  NumericID := lit "0007"
  Name := lit "JSONArgsRecommended"
  Description := lit "JSON arguments recommended for ENTRYPOINT/CMD to prevent unintended behavior related to OS signals, unless using a custom shell"
  URL := lit "http://docs.docker.com/go/build-rules/json-args-recommended"
  Format := some (fun instructionName =>
    Sprintf tab (lit "JSON arguments recommended for %s to prevent unintended behavior related to OS signals") [instructionName])

/-- The variable `RuleMaintainerDeprecated`. -/
def RuleMaintainerDeprecated : LinterRule Fmt0 where
  NumericID := lit "0008"
  Name := lit "MaintainerDeprecated"
  Description := lit "The MAINTAINER instruction is deprecated, use a label instead to define an image author"
  URL := lit "http://docs.docker.com/go/build-rules/maintainer-deprecated"
  Format := some (some (lit "Maintainer instruction is deprecated in favor of using label"))

/-- The variable `RuleUndefinedArgInFrom`. -/
def RuleUndefinedArgInFrom (tab : Nat → Bool) : LinterRule Fmt2 where
  NumericID := lit "0009"
  Name := lit "UndefinedArgInFrom"
  Description := lit "FROM command must use declared ARGs"
  URL := lit "http://docs.docker.com/go/build-rules/undefined-arg-in-from"
  Format := some (fun baseArg suggest =>
    match Sprintf tab (lit "FROM argument '%s' is not declared") [baseArg] with
    | none => none
    | some out =>
      if suggest ≠ [] then
        match Sprintf tab (lit " (did you mean %s?)") [suggest] with
        | none => none
        | some more => some (out ++ more)
      else some out)

/-- The variable `RuleUndefinedArg`. -/
def RuleUndefinedArg (tab : Nat → Bool) : LinterRule Fmt1 where
  NumericID := lit "0010"
  Name := lit "UndefinedArg"
  Description := lit "ARGs should be defined before their use"
  URL := lit "http://docs.docker.com/go/build-rules/undefined-arg"
  Format := some (fun arg =>
    Sprintf tab (lit "Usage of undefined variable '$%s'") [arg])

/-- The variable `RuleUndefinedVar`. -/
def RuleUndefinedVar (tab : Nat → Bool) : LinterRule Fmt2 where
  NumericID := lit "0011"
  Name := lit "UndefinedVar"
  Description := lit "Variables should be defined before their use"
  URL := lit "http://docs.docker.com/go/build-rules/undefined-var"
  Format := some (fun arg suggest =>
    match Sprintf tab (lit "Usage of undefined variable '$%s'") [arg] with
    | none => none
    | some out =>
      if suggest ≠ [] then
        match Sprintf tab (lit " (did you mean $%s?)") [suggest] with
        | none => none
        | some more => some (out ++ more)
      else some out)

/-- The variable `RuleWorkdirRelativePath`. -/
def RuleWorkdirRelativePath (tab : Nat → Bool) : LinterRule Fmt1 where
  NumericID := lit "0012"
  Name := lit "WorkdirRelativePath"
  Description := lit "Relative workdir without an absolute workdir declared within the build can have unexpected results if the base image changes"
  URL := lit "http://docs.docker.com/go/build-rules/workdir-relative-path"
  Format := some (fun workdir =>
    Sprintf tab (lit "Relative workdir %q can have unexpected results if the base image changes") [workdir])

/-- The variable `RuleMultipleInstructionsDisallowed`. -/
def RuleMultipleInstructionsDisallowed (tab : Nat → Bool) : LinterRule Fmt1 where
  NumericID := lit "0013"
  Name := lit "MultipleInstructionsDisallowed"
  Description := lit "Multiple instructions of the same type should not be used in the same stage"
  URL := lit "http://docs.docker.com/go/build-rules/multiple-instructions-disallowed"
  Format := some (fun instructionName =>
    Sprintf tab (lit "Multiple %s instructions should not be used in the same stage because only the last one will be used") [instructionName])

/-- The variable `RuleLegacyKeyValueFormat`. -/
def RuleLegacyKeyValueFormat (tab : Nat → Bool) : LinterRule Fmt1 where
  NumericID := lit "0014"
  Name := lit "LegacyKeyValueFormat"
  Description := lit "Legacy key/value format with whitespace separator should not be used"
  URL := lit "http://docs.docker.com/go/build-rules/legacy-key-value-format"
  Format := some (fun cmdName =>
    Sprintf tab (lit "\"%s key=value\" should be used instead of legacy \"%s key value\" format") [cmdName, cmdName])

/-! ## The descriptors as one collection -/

/-- A rule value of `ruleset.go` of whichever instantiation of `LinterRule[F]`
it has: the three shapes of `F` that occur in the file. -/
inductive RuleDescriptor where
  /-- A rule whose formatter is `func() string`. -/
  | zeroArg (rule : LinterRule Fmt0)
  /-- A rule whose formatter is `func(string) string`. -/
  | oneArg (rule : LinterRule Fmt1)
  /-- A rule whose formatter is `func(string, string) string`. -/
  | twoArg (rule : LinterRule Fmt2)

/-- The field `NumericID` of a descriptor. -/
def RuleDescriptor.NumericID : RuleDescriptor → GoString
  | .zeroArg r => r.NumericID
  | .oneArg r => r.NumericID
  | .twoArg r => r.NumericID

/-- The field `Name` of a descriptor. -/
def RuleDescriptor.Name : RuleDescriptor → GoString
  | .zeroArg r => r.Name
  | .oneArg r => r.Name
  | .twoArg r => r.Name

/-- The field `Description` of a descriptor. -/
def RuleDescriptor.Description : RuleDescriptor → GoString
  | .zeroArg r => r.Description
  | .oneArg r => r.Description
  | .twoArg r => r.Description

/-- The field `URL` of a descriptor. -/
def RuleDescriptor.URL : RuleDescriptor → GoString
  | .zeroArg r => r.URL
  | .oneArg r => r.URL
  | .twoArg r => r.URL

/-- Whether the field `Format` of a descriptor is set, that is, not nil. -/
def RuleDescriptor.hasFormat : RuleDescriptor → Bool
  | .zeroArg r => r.Format.isSome
  | .oneArg r => r.Format.isSome
  | .twoArg r => r.Format.isSome

/-- The NumericID, Name, Description and URL of a descriptor and whether its
Format is set: the part of a descriptor that can be compared. -/
def RuleDescriptor.fields (d : RuleDescriptor) :
    GoString × GoString × GoString × GoString × Bool :=
  (d.NumericID, d.Name, d.Description, d.URL, d.hasFormat)

/-- The rule values of the `var ( ... )` block of `ruleset.go`, in the order
in which the block declares them. -/
def ruleset (tab : Nat → Bool) : List RuleDescriptor :=
  [ .oneArg (RuleStageNameCasing tab),
    .twoArg (RuleFromAsCasing tab),
    .zeroArg RuleNoEmptyContinuations,
    .oneArg (RuleConsistentInstuctionCasing tab),
    .oneArg (RuleDuplicateStageName tab),
    .oneArg (RuleReservedStageName tab),
    .oneArg (RuleJSONArgsRecommended tab),
    .zeroArg RuleMaintainerDeprecated,
    .twoArg (RuleUndefinedArgInFrom tab),
    .oneArg (RuleUndefinedArg tab),
    .twoArg (RuleUndefinedVar tab),
    .oneArg (RuleWorkdirRelativePath tab),
    .oneArg (RuleMultipleInstructionsDisallowed tab),
    .oneArg (RuleLegacyKeyValueFormat tab) ]

/-- Go's `strings.Contains` as a proposition: `substr` occurs in `s` as a
run of consecutive bytes. -/
def Contains (s substr : GoString) : Prop := substr <:+: s

instance (s substr : GoString) : Decidable (Contains s substr) :=
  inferInstanceAs (Decidable (substr <:+: s))

/-- The number `n` written with four decimal digits, leading zeros kept. -/
def fourDigits (n : Nat) : GoString :=
  [48 + n / 1000 % 10, 48 + n / 100 % 10, 48 + n / 10 % 10, 48 + n % 10]

/-- A byte that `strconv.Quote` copies unchanged whatever the tables: a
printable ASCII byte other than the double quote and the backslash. -/
def plainByte (b : Nat) : Prop := 0x20 ≤ b ∧ b ≤ 0x7E ∧ b ≠ 34 ∧ b ≠ 92

instance (b : Nat) : Decidable (plainByte b) :=
  inferInstanceAs (Decidable (0x20 ≤ b ∧ b ≤ 0x7E ∧ b ≠ 34 ∧ b ≠ 92))

/-! ## Reference messages of the two rules with a suggestion -/

/-- The base message `B1(a)` of the rule `UndefinedArgInFrom`. -/
def baseUndefinedArgInFrom (a : GoString) : GoString :=
  lit "FROM argument '" ++ a ++ lit "' is not declared"

/-- The base message `B2(a)` of the rule `UndefinedVar`. -/
def baseUndefinedVar (a : GoString) : GoString :=
  lit "Usage of undefined variable '$" ++ a ++ lit "'"

/-- The reference message of `UndefinedArgInFrom`: the base message, followed
by the did-you-mean clause when the suggestion is not empty. -/
def refUndefinedArgInFrom (a s : GoString) : GoString :=
  if s = [] then baseUndefinedArgInFrom a
  else baseUndefinedArgInFrom a ++ lit " (did you mean " ++ s ++ lit "?)"

/-- The reference message of `UndefinedVar`: the base message, followed by the
did-you-mean clause when the suggestion is not empty. -/
def refUndefinedVar (a s : GoString) : GoString :=
  if s = [] then baseUndefinedVar a
  else baseUndefinedVar a ++ lit " (did you mean $" ++ s ++ lit "?)"

/-! ## The catalog and the diagnostic sink -/

/-- Modelled from the spec: the errors of the rule catalog, which `ruleset.go`
does not declare. -/
inductive CatalogError where
  /-- A descriptor with the same code or name is registered already. -/
  | DuplicateRuleError
  /-- No descriptor is registered under the code or name looked up. -/
  | UnknownRuleError
  deriving DecidableEq

/-- Modelled from the spec: the type `RuleCatalog`, which `ruleset.go` does
not declare. The registered descriptors, in the order of registration. -/
structure RuleCatalog where
  /-- The registered descriptors. -/
  entries : List RuleDescriptor

/-- Modelled from the spec: the catalog before any registration. -/
def RuleCatalog.empty : RuleCatalog := ⟨[]⟩

/-- Modelled from the spec: the operation `register` of the catalog, which
`ruleset.go` does not define. It fails with `DuplicateRuleError` if the code
or the name is present already, and adds the descriptor otherwise. -/
def RuleCatalog.register (cat : RuleCatalog) (d : RuleDescriptor) :
    Except CatalogError RuleCatalog :=
  if cat.entries.any (fun e => e.NumericID = d.NumericID ∨ e.Name = d.Name) then
    .error .DuplicateRuleError
  else .ok ⟨cat.entries ++ [d]⟩

/-- Modelled from the spec: the operation `lookup` of the catalog, which
`ruleset.go` does not define. It returns the descriptor registered under
`code` or fails with `UnknownRuleError`. -/
def RuleCatalog.lookup (cat : RuleCatalog) (code : GoString) :
    Except CatalogError RuleDescriptor :=
  match cat.entries.find? (fun e => e.NumericID = code) with
  | some d => .ok d
  | none => .error .UnknownRuleError

/-- Modelled from the spec: the catalog that registers the given descriptors
one after the other, stopping at the first registration that fails. -/
def RuleCatalog.registerAll (cat : RuleCatalog) :
    List RuleDescriptor → Except CatalogError RuleCatalog
  | [] => .ok cat
  | d :: ds =>
    match cat.register d with
    | .error e => .error e
    | .ok cat1 => cat1.registerAll ds

/-- Modelled from the spec: the severity of a diagnostic, which is
informational throughout. -/
inductive Severity where
  /-- The one severity of the core. -/
  | informational
  deriving DecidableEq

/-- Modelled from the spec: the type `Diagnostic`, which `ruleset.go` does not
declare. The location is supplied by the caller and only compared. -/
structure Diagnostic (Loc : Type) where
  /-- The code of the rule, copied from the descriptor. -/
  ruleCode : GoString
  /-- The name of the rule, copied from the descriptor. -/
  ruleName : GoString
  /-- The formatted message. -/
  message : GoString
  /-- The source position. -/
  location : Loc
  /-- The severity. -/
  severity : Severity := .informational

/-- Modelled from the spec: the type `DiagnosticSink`, which `ruleset.go` does
not declare. The recorded diagnostics, in the order first recorded. -/
structure DiagnosticSink (Loc : Type) where
  /-- The recorded diagnostics. -/
  entries : List (Diagnostic Loc)

/-- Modelled from the spec: a fresh sink, as each lint run constructs. -/
def DiagnosticSink.empty {Loc : Type} : DiagnosticSink Loc := ⟨[]⟩

/-- Modelled from the spec: the operation `record` of the sink, which
`ruleset.go` does not define. It appends the diagnostic unless an entry has
the same `(ruleCode, location, message)` triple, and is a no-op then. -/
def DiagnosticSink.record {Loc : Type} [DecidableEq Loc] (sink : DiagnosticSink Loc)
    (d : Diagnostic Loc) : DiagnosticSink Loc :=
  if sink.entries.any
      (fun e => e.ruleCode = d.ruleCode ∧ e.location = d.location ∧ e.message = d.message) then
    sink
  else ⟨sink.entries ++ [d]⟩

/-- Modelled from the spec: the query `results` of the sink. -/
def DiagnosticSink.results {Loc : Type} (sink : DiagnosticSink Loc) : List (Diagnostic Loc) :=
  sink.entries

/-- Modelled from the spec: the query `count` of the sink. -/
def DiagnosticSink.count {Loc : Type} (sink : DiagnosticSink Loc) : Nat :=
  sink.entries.length

/-! ## The documentation links -/

/-- The text that the documentation link of a rule starts with. -/
def urlBase : GoString := lit "http://docs.docker.com/go/build-rules/"

/-- The part of a documentation link that follows `urlBase`. -/
def slugOf (url : GoString) : GoString := url.drop urlBase.length

/-- The ASCII lower-casing of a string: the bytes `A`..`Z` become `a`..`z`,
every other byte is kept. -/
def toLowerASCII (s : GoString) : GoString :=
  s.map (fun b => if 65 ≤ b ∧ b ≤ 90 then b + 32 else b)

/-- The string without its hyphens. -/
def dropHyphens (s : GoString) : GoString := s.filter (fun b => b ≠ 45)

/-- A slug: lowercase ASCII letters and hyphens only, no hyphen first or
last, and no two hyphens in a row. -/
def IsSlug (s : GoString) : Prop :=
  (∀ b ∈ s, (97 ≤ b ∧ b ≤ 122) ∨ b = 45) ∧
  s.head? ≠ some 45 ∧ s.getLast? ≠ some 45 ∧ ¬ [45, 45] <:+: s

instance (s : GoString) : Decidable (IsSlug s) :=
  inferInstanceAs (Decidable
    ((∀ b ∈ s, (97 ≤ b ∧ b ≤ 122) ∨ b = 45) ∧
      s.head? ≠ some 45 ∧ s.getLast? ≠ some 45 ∧ ¬ [45, 45] <:+: s))

/-! ## Strings that `strconv.Quote` copies -/

/-- A rune that `strconv.Quote` copies unchanged: a valid rune that is
printable and is neither the double quote nor the backslash. -/
def plainRune (tab : Nat → Bool) (r : Nat) : Prop :=
  ValidRune r = true ∧ IsPrint tab r = true ∧ r ≠ 34 ∧ r ≠ 92

/-- A string that is the UTF-8 encoding of a sequence of runes each of which
`strconv.Quote` copies unchanged. -/
def PlainUTF8 (tab : Nat → Bool) (s : GoString) : Prop :=
  ∃ rs : List Nat, s = rs.flatMap AppendRune ∧ ∀ r ∈ rs, plainRune tab r

instance (tab : Nat → Bool) (r : Nat) : Decidable (plainRune tab r) :=
  inferInstanceAs (Decidable (ValidRune r = true ∧ IsPrint tab r = true ∧ r ≠ 34 ∧ r ≠ 92))

/-! # Theorems -/

set_option maxRecDepth 100000

/-! ## The descriptors as data -/

/-- The comparable part of the descriptors does not depend on the tables. -/
theorem ruleset_fields (tab : Nat → Bool) :
    (ruleset tab).map RuleDescriptor.fields
      = (ruleset (fun _ => false)).map RuleDescriptor.fields := rfl

/-- The NumericIDs of the descriptors in declaration order. -/
theorem ruleset_numericIDs (tab : Nat → Bool) :
    (ruleset tab).map RuleDescriptor.NumericID
      = (List.range 14).map (fun i => fourDigits (i + 1)) := rfl

/-- The Names of the descriptors do not depend on the tables. -/
theorem ruleset_names (tab : Nat → Bool) :
    (ruleset tab).map RuleDescriptor.Name
      = (ruleset (fun _ => false)).map RuleDescriptor.Name := rfl

/-- C1: among the fourteen rule descriptors of ruleset.go no two have the same
NumericID and no two have the same Name. -/
theorem ruleset_numericID_name_unique (tab : Nat → Bool) :
    (ruleset tab).length = 14 ∧
    ((ruleset tab).map RuleDescriptor.NumericID).Nodup ∧
    ((ruleset tab).map RuleDescriptor.Name).Nodup := by
  refine ⟨rfl, ?_, ?_⟩
  · rw [ruleset_numericIDs]; decide
  · rw [ruleset_names]; decide

/-- C5: the catalog declares exactly fourteen descriptors, and in declaration
order the i-th NumericID is i written with four decimal digits, so that the
NumericIDs are strictly ascending without gaps. -/
theorem ruleset_numericID_sequential (tab : Nat → Bool) :
    (ruleset tab).length = 14 ∧
    (ruleset tab).map RuleDescriptor.NumericID
      = (List.range 14).map (fun i => fourDigits (i + 1)) ∧
    ((ruleset tab).map RuleDescriptor.NumericID).Pairwise (fun a b => a < b) := by
  refine ⟨rfl, rfl, ?_⟩
  rw [ruleset_numericIDs]; decide

/-- C6: every one of the fourteen descriptors has a non-empty NumericID, Name,
Description and URL, and a Format that is set. -/
theorem ruleset_fields_supplied (tab : Nat → Bool) :
    (ruleset tab).length = 14 ∧
    List.Forall
      (fun d : RuleDescriptor =>
        d.NumericID ≠ [] ∧ d.Name ≠ [] ∧ d.Description ≠ [] ∧ d.URL ≠ [] ∧ d.hasFormat = true)
      (ruleset tab) := by
  refine ⟨rfl, ?_⟩
  have h : List.Forall
      (fun f : GoString × GoString × GoString × GoString × Bool =>
        f.1 ≠ [] ∧ f.2.1 ≠ [] ∧ f.2.2.1 ≠ [] ∧ f.2.2.2.1 ≠ [] ∧ f.2.2.2.2 = true)
      ((ruleset tab).map RuleDescriptor.fields) := by
    rw [ruleset_fields]; decide
  rw [List.forall_map_iff] at h
  exact h

/-! ## Evaluation of the formatters -/

/-- The message of `UndefinedArgInFrom`, evaluated. -/
theorem call2_UndefinedArgInFrom (tab : Nat → Bool) (a s : GoString) :
    (RuleUndefinedArgInFrom tab).call2 a s
      = some (if s = [] then lit "FROM argument '" ++ (a ++ lit "' is not declared")
          else (lit "FROM argument '" ++ (a ++ lit "' is not declared"))
            ++ (lit " (did you mean " ++ (s ++ lit "?)"))) := by
  cases s <;> rfl

/-- The message of `UndefinedVar`, evaluated. -/
theorem call2_UndefinedVar (tab : Nat → Bool) (a s : GoString) :
    (RuleUndefinedVar tab).call2 a s
      = some (if s = [] then lit "Usage of undefined variable '$" ++ (a ++ lit "'")
          else (lit "Usage of undefined variable '$" ++ (a ++ lit "'"))
            ++ (lit " (did you mean $" ++ (s ++ lit "?)"))) := by
  cases s <;> rfl

/-- The base message of `UndefinedArgInFrom`, bracketed to the right. -/
theorem baseUndefinedArgInFrom_eq (a : GoString) :
    baseUndefinedArgInFrom a = lit "FROM argument '" ++ (a ++ lit "' is not declared") := by
  simp [baseUndefinedArgInFrom]

/-- The base message of `UndefinedVar`, bracketed to the right. -/
theorem baseUndefinedVar_eq (a : GoString) :
    baseUndefinedVar a = lit "Usage of undefined variable '$" ++ (a ++ lit "'") := by
  simp [baseUndefinedVar]

/-- The formatter of `UndefinedArgInFrom` returns the reference message. -/
theorem call2_UndefinedArgInFrom_ref (tab : Nat → Bool) (a s : GoString) :
    (RuleUndefinedArgInFrom tab).call2 a s = some (refUndefinedArgInFrom a s) := by
  rw [call2_UndefinedArgInFrom]
  unfold refUndefinedArgInFrom
  split <;> simp [baseUndefinedArgInFrom_eq, List.append_assoc]

/-- The formatter of `UndefinedVar` returns the reference message. -/
theorem call2_UndefinedVar_ref (tab : Nat → Bool) (a s : GoString) :
    (RuleUndefinedVar tab).call2 a s = some (refUndefinedVar a s) := by
  rw [call2_UndefinedVar]
  unfold refUndefinedVar
  split <;> simp [baseUndefinedVar_eq, List.append_assoc]

/-! ## Occurrences of a substring -/

/-- A list that starts `l ++ d :: q` and does not contain `d` starts `l`. -/
theorem prefix_of_prefix_append_cons {pat l q : List Nat} {d : Nat} (hd : d ∉ pat)
    (h : pat <+: l ++ d :: q) : pat <+: l := by
  rcases List.prefix_or_prefix_of_prefix h (List.prefix_append l (d :: q)) with h1 | h1
  · exact h1
  · obtain ⟨r, rfl⟩ := h1
    rw [List.prefix_append_right_inj] at h
    cases r with
    | nil => simp
    | cons y r =>
      rw [List.cons_prefix_cons] at h
      exact absurd (by simp [h.1]) hd

/-- An occurrence of `pat` in `a ++ d :: q` lies within `a` when `pat` has no
`d` and has an element that `d :: q` lacks. -/
theorem infix_of_infix_append_cons {pat q : List Nat} {c d : Nat} (hc : c ∈ pat)
    (hcq : c ∉ d :: q) (hd : d ∉ pat) :
    ∀ a : List Nat, pat <:+: a ++ d :: q → pat <:+: a := by
  intro a
  induction a with
  | nil =>
    intro h
    exact absurd (h.subset hc) hcq
  | cons x a ih =>
    intro h
    rw [List.cons_append, List.infix_cons_iff] at h
    rcases h with h | h
    · have h2 : pat <+: (x :: a) ++ d :: q := by simpa using h
      exact (prefix_of_prefix_append_cons hd h2).isInfix
    · exact List.infix_cons (ih h)

/-- An occurrence of `pat` in `p ++ (a ++ d :: q)` lies within `a` when the
first element of `pat` occurs neither in `p` nor in `d :: q` and `pat` has no
`d`. -/
theorem infix_of_infix_wrap {pat p q : List Nat} {c d : Nat} (hc : pat.head? = some c)
    (hcp : c ∉ p) (hcq : c ∉ d :: q) (hd : d ∉ pat) (a : List Nat)
    (h : pat <:+: p ++ (a ++ d :: q)) : pat <:+: a := by
  have hmem : c ∈ pat := List.mem_of_mem_head? hc
  induction p with
  | nil => exact infix_of_infix_append_cons hmem hcq hd a (by simpa using h)
  | cons x p ih =>
    rw [List.cons_append, List.infix_cons_iff] at h
    rcases h with h | h
    · exfalso
      cases pat with
      | nil => simp at hc
      | cons y pat =>
        rw [List.cons_prefix_cons] at h
        simp at hc
        exact hcp (by simp [← hc, h.1])
    · exact ih (fun hm => hcp (List.mem_cons_of_mem _ hm)) h

/-- Under the conditions above, `p ++ (a ++ d :: q)` contains `pat` exactly
when `a` does. -/
theorem contains_base_iff {pat p q : List Nat} {c d : Nat} (hc : pat.head? = some c)
    (hcp : c ∉ p) (hcq : c ∉ d :: q) (hd : d ∉ pat) (a : List Nat) :
    Contains (p ++ (a ++ d :: q)) pat ↔ Contains a pat := by
  constructor
  · exact infix_of_infix_wrap hc hcp hcq hd a
  · intro h
    exact h.trans ((List.infix_append' p a (d :: q)))

/-! ## Quoting of plain bytes -/

/-- A byte below `RuneSelf` decodes to itself, with width 1. -/
theorem DecodeRuneInString_ascii (b : Nat) (rest : GoString) (hb : b < 0x80) :
    DecodeRuneInString (b :: rest) = (b, 1) := by
  simp [DecodeRuneInString, RuneSelf, hb]

/-- A plain byte is appended unescaped. -/
theorem appendEscapedRune_plain (tab : Nat → Bool) (b : Nat) (hb : plainByte b) :
    appendEscapedRune tab b = [b] := by
  obtain ⟨h1, h2, h3, h4⟩ := hb
  have hp : IsPrint tab b = true := by
    unfold IsPrint
    rw [if_pos (by omega), if_pos ⟨h1, h2⟩]
  have hs : b < RuneSelf := by unfold RuneSelf; omega
  unfold appendEscapedRune
  rw [if_neg (by omega), if_pos hp]
  unfold AppendRune
  rw [if_pos hs]

/-- The loop copies a string of plain bytes and closes the quote. -/
theorem quoteLoop_plain (tab : Nat → Bool) (t : GoString) :
    ∀ s : GoString, (∀ b ∈ s, plainByte b) → quoteLoop tab 0 s ++ t = s ++ 34 :: t := by
  intro s
  induction s with
  | nil => intro _; rfl
  | cons b rest ih =>
    intro h
    have hb : plainByte b := h b (List.mem_cons_self b rest)
    have hlt : b < 0x80 := by have := hb.2.1; omega
    have hne : ¬ b = RuneError := by
      unfold RuneError; omega
    unfold quoteLoop
    simp only [DecodeRuneInString_ascii b rest hlt, appendEscapedRune_plain tab b hb, hne,
      and_false, if_false, Nat.sub_self, List.cons_append, List.nil_append, List.cons.injEq,
      true_and]
    exact ih (fun c hc => h c (List.mem_cons_of_mem b hc))

/-- Quoting a string of plain bytes puts it between two double quotes. -/
theorem Quote_plain (tab : Nat → Bool) (s t : GoString) (h : ∀ b ∈ s, plainByte b) :
    Quote tab s ++ t = 34 :: (s ++ 34 :: t) := by
  unfold Quote
  rw [List.cons_append, quoteLoop_plain tab t s h]

/-- The message of `DuplicateStageName`, evaluated. -/
theorem call1_DuplicateStageName (tab : Nat → Bool) (s : GoString) :
    (RuleDuplicateStageName tab).call1 s
      = some (lit "Duplicate stage name "
          ++ (Quote tab s ++ lit ", stage names should be unique")) := rfl

/-! ## Decoding and encoding of runes -/

/-- The valid runes. -/
theorem ValidRune_iff (r : Nat) :
    ValidRune r = true ↔ (r < 0xD800 ∨ (0xDFFF < r ∧ r ≤ 0x10FFFF)) := by
  unfold ValidRune MaxRune
  split_ifs <;> simp <;> omega

/-- The encoding of a rune below `RuneSelf`. -/
theorem AppendRune_one (r : Nat) (h : r < 0x80) : AppendRune r = [r] := by
  unfold AppendRune RuneSelf
  rw [if_pos h]

/-- The encoding of a rune of two bytes. -/
theorem AppendRune_two (r : Nat) (h1 : 0x80 ≤ r) (h2 : r ≤ 0x7FF) :
    AppendRune r = [0xC0 + r / 64, 0x80 + r % 64] := by
  unfold AppendRune RuneSelf
  rw [if_neg (by omega), if_pos h2]

/-- The encoding of a rune of three bytes. -/
theorem AppendRune_three (r : Nat) (h1 : 0x800 ≤ r) (h2 : r ≤ 0xFFFF)
    (h3 : r < 0xD800 ∨ 0xDFFF < r) :
    AppendRune r = [0xE0 + r / 4096, 0x80 + r / 64 % 64, 0x80 + r % 64] := by
  unfold AppendRune RuneSelf MaxRune
  rw [if_neg (by omega), if_neg (by omega), if_neg (by omega), if_pos h2]

/-- The encoding of a rune of four bytes. -/
theorem AppendRune_four (r : Nat) (h1 : 0x10000 ≤ r) (h2 : r ≤ 0x10FFFF) :
    AppendRune r
      = [0xF0 + r / 262144, 0x80 + r / 4096 % 64, 0x80 + r / 64 % 64, 0x80 + r % 64] := by
  unfold AppendRune RuneSelf MaxRune
  rw [if_neg (by omega), if_neg (by omega), if_neg (by omega), if_neg (by omega)]

/-- The lead bytes and what `leadInfo` gives for them. -/
theorem leadInfo_some {b sz lo hi : Nat} (h : leadInfo b = some (sz, lo, hi)) :
    (sz = 2 ∧ lo = 0x80 ∧ hi = 0xBF ∧ 0xC2 ≤ b ∧ b ≤ 0xDF) ∨
    (sz = 3 ∧ b = 0xE0 ∧ lo = 0xA0 ∧ hi = 0xBF) ∨
    (sz = 3 ∧ lo = 0x80 ∧ hi = 0xBF ∧ ((0xE1 ≤ b ∧ b ≤ 0xEC) ∨ (0xEE ≤ b ∧ b ≤ 0xEF))) ∨
    (sz = 3 ∧ b = 0xED ∧ lo = 0x80 ∧ hi = 0x9F) ∨
    (sz = 4 ∧ b = 0xF0 ∧ lo = 0x90 ∧ hi = 0xBF) ∨
    (sz = 4 ∧ lo = 0x80 ∧ hi = 0xBF ∧ 0xF1 ≤ b ∧ b ≤ 0xF3) ∨
    (sz = 4 ∧ b = 0xF4 ∧ lo = 0x80 ∧ hi = 0x8F) := by
  unfold leadInfo at h
  split_ifs at h <;> simp at h <;> omega

/-- A continuation byte lies between `0x80` and `0xBF`. -/
theorem isCont_iff (b : Nat) : isCont b = true ↔ (0x80 ≤ b ∧ b ≤ 0xBF) := by
  unfold isCont
  simp

/-- What `DecodeRuneInString` returns for a non-empty string: either the
error `(RuneError, 1)`, or a valid rune together with the number of the
leading bytes of the string that are its encoding. -/
theorem DecodeRuneInString_spec (b : Nat) (rest : GoString) :
    ((DecodeRuneInString (b :: rest)).2 = 1 ∧ (DecodeRuneInString (b :: rest)).1 = RuneError) ∨
    (ValidRune (DecodeRuneInString (b :: rest)).1 = true ∧
      AppendRune (DecodeRuneInString (b :: rest)).1
        = (b :: rest).take (DecodeRuneInString (b :: rest)).2 ∧
      1 ≤ (DecodeRuneInString (b :: rest)).2 ∧
      (DecodeRuneInString (b :: rest)).2 ≤ rest.length + 1) := by
  by_cases h0 : b < 0x80
  · right
    rw [DecodeRuneInString_ascii b rest h0]
    refine ⟨(ValidRune_iff b).2 (by omega), ?_, le_refl 1, by omega⟩
    rw [AppendRune_one b h0]
    rfl
  · unfold DecodeRuneInString
    simp only [RuneSelf, h0, if_false]
    cases hl : leadInfo b with
    | none => left; exact ⟨rfl, rfl⟩
    | some info =>
      obtain ⟨sz, lo, hi⟩ := info
      have hinfo := leadInfo_some hl
      simp only
      by_cases h1 : rest.length + 1 < sz
      · left; rw [if_pos h1]; exact ⟨rfl, rfl⟩
      · rw [if_neg h1]
        cases rest with
        | nil => left; exact ⟨rfl, rfl⟩
        | cons s1 rest1 =>
          simp only
          by_cases h2 : s1 < lo ∨ hi < s1
          · left; rw [if_pos h2]; exact ⟨rfl, rfl⟩
          · rw [if_neg h2]
            by_cases h3 : sz ≤ 2
            · right
              rw [if_pos h3]
              have hr1 : 0x80 ≤ b % 32 * 64 + s1 % 64 := by omega
              have hr2 : b % 32 * 64 + s1 % 64 ≤ 0x7FF := by omega
              refine ⟨(ValidRune_iff _).2 (by omega), ?_, by omega, by simp⟩
              rw [AppendRune_two _ hr1 hr2]
              simp only [List.take, List.cons.injEq, and_true]
              omega
            · rw [if_neg h3]
              cases rest1 with
              | nil => left; exact ⟨rfl, rfl⟩
              | cons s2 rest2 =>
                simp only
                by_cases h4 : isCont s2 = true
                · have h4b := (isCont_iff s2).1 h4
                  simp only [h4, Bool.not_true, Bool.false_eq_true, if_false]
                  by_cases h5 : sz ≤ 3
                  · right
                    rw [if_pos h5]
                    have hr1 : 0x800 ≤ b % 16 * 4096 + s1 % 64 * 64 + s2 % 64 := by omega
                    have hr2 : b % 16 * 4096 + s1 % 64 * 64 + s2 % 64 ≤ 0xFFFF := by omega
                    have hr3 : b % 16 * 4096 + s1 % 64 * 64 + s2 % 64 < 0xD800 ∨
                        0xDFFF < b % 16 * 4096 + s1 % 64 * 64 + s2 % 64 := by omega
                    refine ⟨(ValidRune_iff _).2 (by omega), ?_, by omega, by simp⟩
                    rw [AppendRune_three _ hr1 hr2 hr3]
                    simp only [List.take, List.cons.injEq, and_true]
                    omega
                  · rw [if_neg h5]
                    cases rest2 with
                    | nil => left; exact ⟨rfl, rfl⟩
                    | cons s3 rest3 =>
                      simp only
                      by_cases h6 : isCont s3 = true
                      · have h6b := (isCont_iff s3).1 h6
                        simp only [h6, Bool.not_true, Bool.false_eq_true, if_false]
                        right
                        have hr1 : 0x10000 ≤
                            b % 8 * 262144 + s1 % 64 * 4096 + s2 % 64 * 64 + s3 % 64 := by omega
                        have hr2 : b % 8 * 262144 + s1 % 64 * 4096 + s2 % 64 * 64 + s3 % 64
                            ≤ 0x10FFFF := by omega
                        refine ⟨(ValidRune_iff _).2 (by omega), ?_, by omega, by simp⟩
                        rw [AppendRune_four _ hr1 hr2]
                        simp only [List.take, List.cons.injEq, and_true]
                        omega
                      · left
                        have h6b : (!isCont s3) = true := by simpa using h6
                        rw [if_pos h6b]
                        exact ⟨rfl, rfl⟩
                · left
                  have h4b : (!isCont s2) = true := by simpa using h4
                  rw [if_pos h4b]
                  exact ⟨rfl, rfl⟩

/-- The lead bytes of the sequences of three bytes. -/
theorem leadInfo_three (q : Nat) (hq : q ≤ 15) :
    leadInfo (0xE0 + q)
      = some (3, if q = 0 then 0xA0 else 0x80, if q = 13 then 0x9F else 0xBF) := by
  interval_cases q <;> rfl

/-- The lead bytes of the sequences of four bytes. -/
theorem leadInfo_four (q : Nat) (hq : q ≤ 4) :
    leadInfo (0xF0 + q)
      = some (4, if q = 0 then 0x90 else 0x80, if q = 4 then 0x8F else 0xBF) := by
  interval_cases q <;> rfl

/-- Decoding the encoding of a valid rune gives the rune back, with the
length of the encoding as width, and never the error. -/
theorem DecodeRuneInString_AppendRune (r : Nat) (rest : GoString)
    (hv : ValidRune r = true) :
    ∃ b p, AppendRune r = b :: p ∧
      DecodeRuneInString (b :: (p ++ rest)) = (r, p.length + 1) ∧
      ¬ (p.length + 1 = 1 ∧ r = RuneError) := by
  rw [ValidRune_iff] at hv
  by_cases h1 : r < 0x80
  · refine ⟨r, [], AppendRune_one r h1, DecodeRuneInString_ascii r _ h1, ?_⟩
    unfold RuneError; omega
  · by_cases h2 : r ≤ 0x7FF
    · refine ⟨_, _, AppendRune_two r (by omega) h2, ?_, by simp⟩
      have hl : leadInfo (0xC0 + r / 64) = some (2, 0x80, 0xBF) := by
        unfold leadInfo
        rw [if_pos (by omega)]
      unfold DecodeRuneInString
      simp only [RuneSelf, hl, List.cons_append, List.nil_append, List.length_cons]
      rw [if_neg (by omega), if_neg (by omega), if_neg (by omega), if_pos (le_refl 2)]
      simp only [List.length_nil, Prod.mk.injEq, and_true]
      omega
    · by_cases h3 : r ≤ 0xFFFF
      · refine ⟨_, _, AppendRune_three r (by omega) h3 (by omega), ?_, by simp⟩
        obtain ⟨lo, hi, hl, hlo, hhi⟩ : ∃ lo hi, leadInfo (0xE0 + r / 4096) = some (3, lo, hi) ∧
            lo ≤ 0x80 + r / 64 % 64 ∧ 0x80 + r / 64 % 64 ≤ hi := by
          refine ⟨_, _, leadInfo_three (r / 4096) (by omega), ?_, ?_⟩
          · split_ifs <;> omega
          · split_ifs <;> omega
        have hc : isCont (0x80 + r % 64) = true := (isCont_iff _).2 (by omega)
        unfold DecodeRuneInString
        simp only [RuneSelf, hl, List.cons_append, List.nil_append, List.length_cons, hc,
          Bool.not_true, Bool.false_eq_true, if_false]
        rw [if_neg (by omega), if_neg (by omega), if_neg (by omega), if_neg (by omega),
          if_pos (le_refl 3)]
        simp only [List.length_nil, Prod.mk.injEq, and_true]
        omega
      · refine ⟨_, _, AppendRune_four r (by omega) (by omega), ?_, by simp⟩
        obtain ⟨lo, hi, hl, hlo, hhi⟩ : ∃ lo hi,
            leadInfo (0xF0 + r / 262144) = some (4, lo, hi) ∧
            lo ≤ 0x80 + r / 4096 % 64 ∧ 0x80 + r / 4096 % 64 ≤ hi := by
          refine ⟨_, _, leadInfo_four (r / 262144) (by omega), ?_, ?_⟩
          · split_ifs <;> omega
          · split_ifs <;> omega
        have hc2 : isCont (0x80 + r / 64 % 64) = true := (isCont_iff _).2 (by omega)
        have hc3 : isCont (0x80 + r % 64) = true := (isCont_iff _).2 (by omega)
        unfold DecodeRuneInString
        simp only [RuneSelf, hl, List.cons_append, List.nil_append, List.length_cons, hc2, hc3,
          Bool.not_true, Bool.false_eq_true, if_false]
        rw [if_neg (by omega), if_neg (by omega), if_neg (by omega), if_neg (by omega),
          if_neg (by omega)]
        simp only [List.length_nil, Prod.mk.injEq, and_true]
        omega

/-- Bytes that are passed over are not looked at. -/
theorem quoteLoop_skip (tab : Nat → Bool) :
    ∀ (p rest : GoString), quoteLoop tab p.length (p ++ rest) = quoteLoop tab 0 rest := by
  intro p
  induction p with
  | nil => intro rest; rfl
  | cons x p ih =>
    intro rest
    have step : quoteLoop tab (x :: p).length ((x :: p) ++ rest)
        = quoteLoop tab p.length (p ++ rest) := rfl
    rw [step]
    exact ih rest

/-- The loop at a byte that is to be passed over. -/
theorem quoteLoop_succ_cons (tab : Nat → Bool) (k b : Nat) (rest : GoString) :
    quoteLoop tab (k + 1) (b :: rest) = quoteLoop tab k rest := rfl

/-- The loop at the first byte of a rune. -/
theorem quoteLoop_zero_cons (tab : Nat → Bool) (b : Nat) (rest : GoString) :
    quoteLoop tab 0 (b :: rest)
      = if (DecodeRuneInString (b :: rest)).2 = 1 ∧ (DecodeRuneInString (b :: rest)).1 = RuneError
        then [92, 120, lowerhex (b / 16), lowerhex (b % 16)] ++ quoteLoop tab 0 rest
        else appendEscapedRune tab (DecodeRuneInString (b :: rest)).1
          ++ quoteLoop tab ((DecodeRuneInString (b :: rest)).2 - 1) rest := rfl

/-- A plain rune is appended as its encoding. -/
theorem appendEscapedRune_plainRune (tab : Nat → Bool) (r : Nat) (h : plainRune tab r) :
    appendEscapedRune tab r = AppendRune r := by
  obtain ⟨_, hp, h1, h2⟩ := h
  unfold appendEscapedRune
  rw [if_neg (by omega), if_pos hp]

/-- The length of the encoding of a valid rune. -/
theorem AppendRune_length (r : Nat) (hv : ValidRune r = true) :
    (AppendRune r).length
      = if r < 0x80 then 1 else if r ≤ 0x7FF then 2 else if r ≤ 0xFFFF then 3 else 4 := by
  rw [ValidRune_iff] at hv
  by_cases h1 : r < 0x80
  · rw [AppendRune_one r h1, if_pos h1]; rfl
  · by_cases h2 : r ≤ 0x7FF
    · rw [AppendRune_two r (by omega) h2, if_neg h1, if_pos h2]; rfl
    · by_cases h3 : r ≤ 0xFFFF
      · rw [AppendRune_three r (by omega) h3 (by omega), if_neg h1, if_neg h2, if_pos h3]; rfl
      · rw [AppendRune_four r (by omega) (by omega), if_neg h1, if_neg h2, if_neg h3]; rfl

/-- The number of the digits that `hexDigits` returns. -/
theorem hexDigits_length (n r : Nat) : (hexDigits n r).length = n := by
  induction n with
  | zero => rfl
  | succ n ih => simp [hexDigits, ih]

/-- A valid rune that is not plain is appended as an escape sequence, which is
longer than the encoding of the rune. -/
theorem appendEscapedRune_length (tab : Nat → Bool) (r : Nat) (hv : ValidRune r = true)
    (h : ¬ plainRune tab r) :
    (AppendRune r).length < (appendEscapedRune tab r).length := by
  have hlen := AppendRune_length r hv
  have hv2 := (ValidRune_iff r).1 hv
  have b1 : r < 0x80 → (AppendRune r).length = 1 := by
    intro h1; rw [hlen, if_pos h1]
  have b2 : r < 0x10000 → (AppendRune r).length ≤ 3 := by
    intro h1; rw [hlen]; split_ifs <;> omega
  have b3 : (AppendRune r).length ≤ 4 := by
    rw [hlen]; split_ifs <;> omega
  generalize (AppendRune r).length = n at b1 b2 b3
  unfold appendEscapedRune
  by_cases hq : r = 34 ∨ r = 92
  · rw [if_pos hq]
    have := b1 (by omega)
    simp only [List.length_cons, List.length_nil]
    omega
  · have hp : ¬ IsPrint tab r = true := fun hp => h ⟨hv, hp, by omega, by omega⟩
    rw [if_neg hq, if_neg hp]
    simp only [hv, Bool.not_true, Bool.false_eq_true, if_false]
    split_ifs <;> simp only [List.length_cons, List.length_nil, hexDigits_length] <;> omega

/-- The loop returns at least one byte for every byte it reads, and the
closing quote. -/
theorem quoteLoop_length (tab : Nat → Bool) :
    ∀ (s : GoString) (k : Nat), k ≤ s.length →
      s.length + 1 ≤ (quoteLoop tab k s).length + k := by
  intro s
  induction s with
  | nil => intro k _; simp [quoteLoop]
  | cons b rest ih =>
    intro k hk
    cases k with
    | succ k =>
      rw [quoteLoop_succ_cons]
      have := ih k (by simpa using hk)
      simp only [List.length_cons]
      omega
    | zero =>
      rw [quoteLoop_zero_cons]
      rcases DecodeRuneInString_spec b rest with herr | ⟨hv, henc, hw1, hw2⟩
      · rw [if_pos herr]
        have := ih 0 (Nat.zero_le _)
        simp only [List.length_cons, List.length_append, List.length_nil]
        omega
      · have hl : (AppendRune (DecodeRuneInString (b :: rest)).1).length
            = (DecodeRuneInString (b :: rest)).2 := by
          rw [henc, List.length_take, List.length_cons]
          omega
        have := ih ((DecodeRuneInString (b :: rest)).2 - 1) (by omega)
        split_ifs
        · have := ih 0 (Nat.zero_le _)
          simp only [List.length_cons, List.length_append, List.length_nil]
          omega
        · simp only [List.length_cons, List.length_append]
          by_cases hpl : plainRune tab (DecodeRuneInString (b :: rest)).1
          · rw [appendEscapedRune_plainRune tab _ hpl, hl]
            omega
          · have := appendEscapedRune_length tab _ hv hpl
            omega

/-- The loop copies the encoding of plain runes and closes the quote. -/
theorem quoteLoop_flatMap_AppendRune (tab : Nat → Bool) :
    ∀ rs : List Nat, (∀ r ∈ rs, plainRune tab r) →
      quoteLoop tab 0 (rs.flatMap AppendRune) = rs.flatMap AppendRune ++ [34] := by
  intro rs
  induction rs with
  | nil => intro _; rfl
  | cons r rs ih =>
    intro h
    have hr : plainRune tab r := h r (List.mem_cons_self r rs)
    obtain ⟨b, p, he, hd, hne⟩ :=
      DecodeRuneInString_AppendRune r (rs.flatMap AppendRune) hr.1
    rw [List.flatMap_cons, he, List.cons_append, quoteLoop_zero_cons, hd]
    simp only
    rw [if_neg hne, appendEscapedRune_plainRune tab r hr, he, Nat.add_sub_cancel,
      quoteLoop_skip, ih (fun x hx => h x (List.mem_cons_of_mem r hx))]
    simp only [List.cons_append, List.append_assoc]

/-- A string that the loop copies is the encoding of plain runes. -/
theorem PlainUTF8_of_quoteLoop (tab : Nat → Bool) :
    ∀ (s : GoString) (k : Nat), k ≤ s.length →
      quoteLoop tab k s = s.drop k ++ [34] → PlainUTF8 tab (s.drop k) := by
  intro s
  induction s with
  | nil =>
    intro k _ _
    exact ⟨[], by simp, by simp⟩
  | cons b rest ih =>
    intro k hk h
    cases k with
    | succ k =>
      rw [quoteLoop_succ_cons, List.drop_succ_cons] at h
      rw [List.drop_succ_cons]
      exact ih k (by simpa using hk) h
    | zero =>
      rw [quoteLoop_zero_cons, List.drop_zero] at h
      rw [List.drop_zero]
      have hlen := congrArg List.length h
      have h0 := quoteLoop_length tab rest 0 (Nat.zero_le _)
      by_cases herr : (DecodeRuneInString (b :: rest)).2 = 1 ∧
          (DecodeRuneInString (b :: rest)).1 = RuneError
      · rw [if_pos herr] at hlen
        simp only [List.length_cons, List.length_append, List.length_nil] at hlen
        omega
      · rcases DecodeRuneInString_spec b rest with herr2 | ⟨hv, henc, hw1, hw2⟩
        · exact absurd herr2 herr
        · rw [if_neg herr] at h hlen
          have hl : (AppendRune (DecodeRuneInString (b :: rest)).1).length
              = (DecodeRuneInString (b :: rest)).2 := by
            rw [henc, List.length_take, List.length_cons]
            omega
          have hk1 := quoteLoop_length tab rest ((DecodeRuneInString (b :: rest)).2 - 1)
            (by omega)
          by_cases hpl : plainRune tab (DecodeRuneInString (b :: rest)).1
          · rw [appendEscapedRune_plainRune tab _ hpl, henc] at h
            have hsplit : (b :: rest) ++ [34]
                = List.take (DecodeRuneInString (b :: rest)).2 (b :: rest)
                  ++ (List.drop ((DecodeRuneInString (b :: rest)).2 - 1) rest ++ [34]) := by
              rw [← List.append_assoc]
              congr 1
              obtain ⟨w, hw⟩ : ∃ w, (DecodeRuneInString (b :: rest)).2 = w + 1 :=
                ⟨(DecodeRuneInString (b :: rest)).2 - 1, by omega⟩
              rw [hw, Nat.add_sub_cancel, ← List.drop_succ_cons (a := b)]
              exact (List.take_append_drop _ _).symm
            rw [hsplit, List.append_cancel_left_eq] at h
            obtain ⟨rs, hrs, hall⟩ := ih _ (by omega) h
            refine ⟨(DecodeRuneInString (b :: rest)).1 :: rs, ?_, ?_⟩
            · rw [List.flatMap_cons, henc, ← hrs]
              obtain ⟨w, hw⟩ : ∃ w, (DecodeRuneInString (b :: rest)).2 = w + 1 :=
                ⟨(DecodeRuneInString (b :: rest)).2 - 1, by omega⟩
              rw [hw, Nat.add_sub_cancel, ← List.drop_succ_cons (a := b)]
              exact (List.take_append_drop _ _).symm
            · intro x hx
              rcases List.mem_cons.1 hx with rfl | hx
              · exact hpl
              · exact hall x hx
          · have hesc := appendEscapedRune_length tab _ hv hpl
            simp only [List.length_cons, List.length_append, List.length_nil] at hlen
            omega

/-- Quoting leaves a string unchanged between the two double quotes exactly
when the string is the encoding of plain runes. -/
theorem Quote_eq_iff (tab : Nat → Bool) (s : GoString) :
    Quote tab s = 34 :: (s ++ [34]) ↔ PlainUTF8 tab s := by
  unfold Quote
  rw [List.cons.injEq]
  constructor
  · intro h
    have := PlainUTF8_of_quoteLoop tab s 0 (Nat.zero_le _) (by rw [List.drop_zero]; exact h.2)
    rwa [List.drop_zero] at this
  · rintro ⟨rs, rfl, hall⟩
    exact ⟨rfl, quoteLoop_flatMap_AppendRune tab rs hall⟩

/-! ## The messages of the formatters -/

/-- C2, as stated, fails: with the first argument `(did you mean` and the
empty suggestion, both formatters return, whatever the tables, a message that
contains the substring `(did you mean`. -/
theorem empty_suggestion_contains_clause_text :
    ((fun tab => (RuleUndefinedArgInFrom tab).call2 (lit "(did you mean") [])
        = (fun _ => some (lit "FROM argument '(did you mean' is not declared"))
      ∧ Contains (lit "FROM argument '(did you mean' is not declared") (lit "(did you mean"))
    ∧ ((fun tab => (RuleUndefinedVar tab).call2 (lit "(did you mean") [])
        = (fun _ => some (lit "Usage of undefined variable '$(did you mean'"))
      ∧ Contains (lit "Usage of undefined variable '$(did you mean'") (lit "(did you mean")) := by
  refine ⟨⟨rfl, ?_⟩, ⟨rfl, ?_⟩⟩
  · exact ⟨lit "FROM argument '", lit "' is not declared", rfl⟩
  · exact ⟨lit "Usage of undefined variable '$", lit "'", rfl⟩

/-- C2, amended: with the empty suggestion each of the two formatters returns
a message that contains the substring `(did you mean` exactly when the first
argument contains it; for a first argument without it the message has none. -/
theorem empty_suggestion_omits_clause (tab : Nat → Bool) (a : GoString) :
    (∃ m, (RuleUndefinedArgInFrom tab).call2 a [] = some m ∧
      (Contains m (lit "(did you mean") ↔ Contains a (lit "(did you mean"))) ∧
    (∃ m, (RuleUndefinedVar tab).call2 a [] = some m ∧
      (Contains m (lit "(did you mean") ↔ Contains a (lit "(did you mean"))) := by
  constructor
  · refine ⟨_, call2_UndefinedArgInFrom tab a [], ?_⟩
    rw [if_pos rfl]
    exact contains_base_iff (c := 40) (d := 39) (q := lit " is not declared")
      (by decide) (by decide) (by decide) (by decide) a
  · refine ⟨_, call2_UndefinedVar tab a [], ?_⟩
    rw [if_pos rfl]
    exact contains_base_iff (c := 40) (d := 39) (q := [])
      (by decide) (by decide) (by decide) (by decide) a

/-- C3: for a non-empty suggestion `s` the message of `UndefinedArgInFrom`
contains `(did you mean s?)` and that of `UndefinedVar` contains
`(did you mean $s?)`, with `s` verbatim. -/
theorem nonempty_suggestion_included (tab : Nat → Bool) (a s : GoString) (hs : s ≠ []) :
    (∃ m, (RuleUndefinedArgInFrom tab).call2 a s = some m ∧
      Contains m (lit "(did you mean " ++ s ++ lit "?)")) ∧
    (∃ m, (RuleUndefinedVar tab).call2 a s = some m ∧
      Contains m (lit "(did you mean $" ++ s ++ lit "?)")) := by
  constructor
  · refine ⟨_, call2_UndefinedArgInFrom tab a s, ?_⟩
    rw [if_neg hs]
    refine ⟨lit "FROM argument '" ++ (a ++ lit "' is not declared") ++ [32], [], ?_⟩
    simp only [List.append_assoc, List.append_nil]
    rfl
  · refine ⟨_, call2_UndefinedVar tab a s, ?_⟩
    rw [if_neg hs]
    refine ⟨lit "Usage of undefined variable '$" ++ (a ++ lit "'") ++ [32], [], ?_⟩
    simp only [List.append_assoc, List.append_nil]
    rfl

/-- The inclusion of the suggestion at the first argument `BASE` and the
suggestion `foo`. -/
theorem nonempty_suggestion_included_witness :
    lit "foo" ≠ [] ∧
    ((∃ m, (RuleUndefinedArgInFrom (fun _ => false)).call2 (lit "BASE") (lit "foo") = some m ∧
      Contains m (lit "(did you mean " ++ lit "foo" ++ lit "?)")) ∧
    (∃ m, (RuleUndefinedVar (fun _ => false)).call2 (lit "BASE") (lit "foo") = some m ∧
      Contains m (lit "(did you mean $" ++ lit "foo" ++ lit "?)"))) :=
  ⟨by decide, nonempty_suggestion_included (fun _ => false) (lit "BASE") (lit "foo") (by decide)⟩

/-- C4, as stated, fails: for the stage name `a"b` the formatter returns,
whatever the tables, a message with the double quote escaped, which is not
the concatenation of the claim. -/
theorem duplicateStageName_escapes_quote :
    (fun tab => (RuleDuplicateStageName tab).call1 (lit "a\"b"))
        = (fun _ => some (lit "Duplicate stage name \"a\\\"b\", stage names should be unique"))
    ∧ lit "Duplicate stage name \"a\\\"b\", stage names should be unique"
        ≠ lit "Duplicate stage name \"" ++ lit "a\"b" ++ lit "\", stage names should be unique" :=
  ⟨rfl, by decide⟩

/-- C4, amended: the message of `DuplicateStageName` is
`Duplicate stage name "` followed by the stage name unchanged and by
`", stage names should be unique` exactly when the stage name is the UTF-8
encoding of valid runes that are printable and are neither the double quote
nor the backslash; the stage name `build` is such a name. -/
theorem duplicateStageName_verbatim_iff (tab : Nat → Bool) (s : GoString) :
    ((RuleDuplicateStageName tab).call1 s
        = some (lit "Duplicate stage name \"" ++ s ++ lit "\", stage names should be unique")
      ↔ PlainUTF8 tab s) ∧
    (RuleDuplicateStageName tab).call1 (lit "build")
      = some (lit "Duplicate stage name \"build\", stage names should be unique") := by
  refine ⟨?_, rfl⟩
  have hP : lit "Duplicate stage name \"" = lit "Duplicate stage name " ++ [34] := by decide
  have hR : lit "\", stage names should be unique"
      = 34 :: lit ", stage names should be unique" := by decide
  have hmid : s ++ 34 :: lit ", stage names should be unique"
      = (s ++ [34]) ++ lit ", stage names should be unique" := by simp
  rw [call1_DuplicateStageName, hP, hR, ← Quote_eq_iff tab s, Option.some.injEq,
    List.append_assoc, List.append_assoc, List.append_cancel_left_eq, List.singleton_append,
    hmid, ← List.cons_append, List.append_left_inj]

/-- The message of `DuplicateStageName` at the stage name `café-1`, whose
letter `é` is encoded in two bytes. -/
theorem duplicateStageName_verbatim_witness :
    PlainUTF8 (fun _ => false) (lit "café-1") ∧
    (RuleDuplicateStageName (fun _ => false)).call1 (lit "café-1")
      = some (lit "Duplicate stage name \"café-1\", stage names should be unique") :=
  ⟨⟨[99, 97, 102, 0xE9, 45, 49], by decide, by decide⟩,
    (duplicateStageName_verbatim_iff (fun _ => false) (lit "café-1")).1.2
      ⟨[99, 97, 102, 0xE9, 45, 49], by decide, by decide⟩⟩

/-- C7: every formatter of the fourteen rules returns a message for every
tuple of string arguments of its arity, the empty string included, and the
message is a function of the arguments alone. -/
theorem formatters_total (tab : Nat → Bool) :
    (∃ f : GoString → GoString, ∀ a, (RuleStageNameCasing tab).call1 a = some (f a)) ∧
    (∃ f : GoString → GoString → GoString, ∀ a b,
      (RuleFromAsCasing tab).call2 a b = some (f a b)) ∧
    (∃ m : GoString, RuleNoEmptyContinuations.call0 = some m) ∧
    (∃ f : GoString → GoString, ∀ a,
      (RuleConsistentInstuctionCasing tab).call1 a = some (f a)) ∧
    (∃ f : GoString → GoString, ∀ a, (RuleDuplicateStageName tab).call1 a = some (f a)) ∧
    (∃ f : GoString → GoString, ∀ a, (RuleReservedStageName tab).call1 a = some (f a)) ∧
    (∃ f : GoString → GoString, ∀ a, (RuleJSONArgsRecommended tab).call1 a = some (f a)) ∧
    (∃ m : GoString, RuleMaintainerDeprecated.call0 = some m) ∧
    (∃ f : GoString → GoString → GoString, ∀ a b,
      (RuleUndefinedArgInFrom tab).call2 a b = some (f a b)) ∧
    (∃ f : GoString → GoString, ∀ a, (RuleUndefinedArg tab).call1 a = some (f a)) ∧
    (∃ f : GoString → GoString → GoString, ∀ a b,
      (RuleUndefinedVar tab).call2 a b = some (f a b)) ∧
    (∃ f : GoString → GoString, ∀ a, (RuleWorkdirRelativePath tab).call1 a = some (f a)) ∧
    (∃ f : GoString → GoString, ∀ a,
      (RuleMultipleInstructionsDisallowed tab).call1 a = some (f a)) ∧
    (∃ f : GoString → GoString, ∀ a, (RuleLegacyKeyValueFormat tab).call1 a = some (f a)) := by
  refine ⟨⟨_, fun _ => rfl⟩, ⟨_, fun _ _ => rfl⟩, ⟨_, rfl⟩, ⟨_, fun _ => rfl⟩, ⟨_, fun _ => rfl⟩,
    ⟨_, fun _ => rfl⟩, ⟨_, fun _ => rfl⟩, ⟨_, rfl⟩, ⟨_, call2_UndefinedArgInFrom_ref tab⟩,
    ⟨_, fun _ => rfl⟩, ⟨_, call2_UndefinedVar_ref tab⟩, ⟨_, fun _ => rfl⟩, ⟨_, fun _ => rfl⟩,
    ⟨_, fun _ => rfl⟩⟩

/-- After a diagnostic is recorded, the sink has an entry with the triple of
every diagnostic that has the same rule code, location and message. -/
theorem any_same_triple_after_record {Loc : Type} [DecidableEq Loc]
    (sink : DiagnosticSink Loc) (d e : Diagnostic Loc)
    (h : e.ruleCode = d.ruleCode ∧ e.location = d.location ∧ e.message = d.message) :
    (sink.record d).entries.any
      (fun x => x.ruleCode = e.ruleCode ∧ x.location = e.location ∧ x.message = e.message)
      = true := by
  obtain ⟨h1, h2, h3⟩ := h
  rw [h1, h2, h3]
  by_cases h0 : sink.entries.any
      (fun x => x.ruleCode = d.ruleCode ∧ x.location = d.location ∧ x.message = d.message) = true
  · have e1 : sink.record d = sink := by
      unfold DiagnosticSink.record
      rw [if_pos h0]
    rw [e1]
    exact h0
  · have e1 : sink.record d = ⟨sink.entries ++ [d]⟩ := by
      unfold DiagnosticSink.record
      rw [if_neg h0]
    rw [e1]
    simp

/-- C8: recording a diagnostic a second time right after the first leaves the
sink as the first recording left it, and so does recording another diagnostic
with the same rule code, location and message; from the empty sink two such
recordings give a count of 1 and results of length 1. -/
theorem record_idempotent {Loc : Type} [DecidableEq Loc] (sink : DiagnosticSink Loc)
    (d e : Diagnostic Loc)
    (h : e.ruleCode = d.ruleCode ∧ e.location = d.location ∧ e.message = d.message) :
    (sink.record d).record d = sink.record d ∧
    (sink.record d).record e = sink.record d ∧
    ((DiagnosticSink.empty.record d).record e).count = 1 ∧
    ((DiagnosticSink.empty.record d).record e).results.length = 1 := by
  have same : ∀ (t : DiagnosticSink Loc) (x : Diagnostic Loc),
      (x.ruleCode = d.ruleCode ∧ x.location = d.location ∧ x.message = d.message) →
      (t.record d).record x = t.record d := by
    intro t x hx
    have key := any_same_triple_after_record t d x hx
    generalize t.record d = u at key
    unfold DiagnosticSink.record
    rw [if_pos key]
  have hd : (DiagnosticSink.empty.record d : DiagnosticSink Loc) = ⟨[d]⟩ := by
    simp [DiagnosticSink.record, DiagnosticSink.empty]
  refine ⟨same sink d ⟨rfl, rfl, rfl⟩, same sink e h, ?_, ?_⟩
  · rw [same DiagnosticSink.empty e h, hd]
    rfl
  · rw [same DiagnosticSink.empty e h, hd]
    rfl

/-- The idempotence of record at two diagnostics of rule 0005 at location 7
that differ in the copied rule name only. -/
theorem record_idempotent_witness :
    ((⟨lit "0005", lit "", lit "m", (7 : Nat), .informational⟩ : Diagnostic Nat).ruleCode
        = (⟨lit "0005", lit "DuplicateStageName", lit "m", (7 : Nat), .informational⟩ :
            Diagnostic Nat).ruleCode ∧
      (⟨lit "0005", lit "", lit "m", (7 : Nat), .informational⟩ : Diagnostic Nat).location
        = (⟨lit "0005", lit "DuplicateStageName", lit "m", (7 : Nat), .informational⟩ :
            Diagnostic Nat).location ∧
      (⟨lit "0005", lit "", lit "m", (7 : Nat), .informational⟩ : Diagnostic Nat).message
        = (⟨lit "0005", lit "DuplicateStageName", lit "m", (7 : Nat), .informational⟩ :
            Diagnostic Nat).message) ∧
    ((DiagnosticSink.empty.record
        (⟨lit "0005", lit "DuplicateStageName", lit "m", (7 : Nat), .informational⟩ :
          Diagnostic Nat)).record
        ⟨lit "0005", lit "", lit "m", (7 : Nat), .informational⟩).count = 1 :=
  ⟨⟨rfl, rfl, rfl⟩,
    (record_idempotent DiagnosticSink.empty
      (⟨lit "0005", lit "DuplicateStageName", lit "m", (7 : Nat), .informational⟩ :
        Diagnostic Nat)
      ⟨lit "0005", lit "", lit "m", (7 : Nat), .informational⟩ ⟨rfl, rfl, rfl⟩).2.2.1⟩

/-- Registering the fourteen descriptors of `ruleset.go` one after the other
in the empty catalog succeeds, and the catalog then holds them in order. -/
theorem registerAll_ruleset (tab : Nat → Bool) :
    ∃ cat, RuleCatalog.empty.registerAll (ruleset tab) = .ok cat ∧
      cat.entries.map RuleDescriptor.fields = (ruleset tab).map RuleDescriptor.fields :=
  ⟨_, rfl, rfl⟩

/-- C9: looking up a code that is the NumericID of no registered descriptor
fails with UnknownRuleError, and no descriptor is returned. -/
theorem lookup_unregistered (cat : RuleCatalog) (code : GoString)
    (h : ∀ d ∈ cat.entries, d.NumericID ≠ code) :
    cat.lookup code = .error .UnknownRuleError ∧ ∀ d, cat.lookup code ≠ .ok d := by
  have hfind : cat.entries.find? (fun e => decide (e.NumericID = code)) = none := by
    rw [List.find?_eq_none]
    intro d hd
    simpa using h d hd
  have hl : cat.lookup code = .error .UnknownRuleError := by
    unfold RuleCatalog.lookup
    rw [hfind]
  refine ⟨hl, ?_⟩
  intro d hd
  rw [hl] at hd
  cases hd

/-- The lookup of the code `0015` in the catalog of the fourteen rules. -/
theorem lookup_unregistered_witness :
    (∀ d ∈ (RuleCatalog.mk (ruleset (fun _ => false))).entries, d.NumericID ≠ lit "0015") ∧
    ((RuleCatalog.mk (ruleset (fun _ => false))).lookup (lit "0015") = .error .UnknownRuleError ∧
      ∀ d, (RuleCatalog.mk (ruleset (fun _ => false))).lookup (lit "0015") ≠ .ok d) :=
  ⟨by decide, lookup_unregistered _ _ (by decide)⟩

/-- C10: the two formatters with a suggestion equal the reference messages:
the base message alone for the empty suggestion, and the base message
followed by the did-you-mean clause otherwise, so that the base message is
then a proper prefix of the result. -/
theorem suggestion_formatters_reference (tab : Nat → Bool) (a s : GoString) :
    (RuleUndefinedArgInFrom tab).call2 a s = some (refUndefinedArgInFrom a s) ∧
    (RuleUndefinedVar tab).call2 a s = some (refUndefinedVar a s) ∧
    (RuleUndefinedArgInFrom tab).call2 a [] = some (baseUndefinedArgInFrom a) ∧
    (RuleUndefinedVar tab).call2 a [] = some (baseUndefinedVar a) ∧
    (s ≠ [] →
      baseUndefinedArgInFrom a <+: refUndefinedArgInFrom a s ∧
      baseUndefinedArgInFrom a ≠ refUndefinedArgInFrom a s ∧
      baseUndefinedVar a <+: refUndefinedVar a s ∧
      baseUndefinedVar a ≠ refUndefinedVar a s) := by
  refine ⟨call2_UndefinedArgInFrom_ref tab a s, call2_UndefinedVar_ref tab a s, ?_, ?_, ?_⟩
  · rw [call2_UndefinedArgInFrom_ref]; rfl
  · rw [call2_UndefinedVar_ref]; rfl
  · intro hs
    have hlen1 : (lit " (did you mean ").length = 15 := by decide
    have hlen2 : (lit " (did you mean $").length = 16 := by decide
    unfold refUndefinedArgInFrom refUndefinedVar
    rw [if_neg hs, if_neg hs]
    refine ⟨?_, ?_, ?_, ?_⟩
    · simp [List.append_assoc]
    · intro h
      have := congrArg List.length h
      simp [hlen1] at this
    · simp [List.append_assoc]
    · intro h
      have := congrArg List.length h
      simp [hlen2] at this

/-- The proper prefix at the first argument `BASE` and the suggestion `foo`. -/
theorem suggestion_formatters_reference_witness :
    lit "foo" ≠ [] ∧
    baseUndefinedArgInFrom (lit "BASE") <+: refUndefinedArgInFrom (lit "BASE") (lit "foo") ∧
    baseUndefinedArgInFrom (lit "BASE") ≠ refUndefinedArgInFrom (lit "BASE") (lit "foo") ∧
    baseUndefinedVar (lit "BASE") <+: refUndefinedVar (lit "BASE") (lit "foo") ∧
    baseUndefinedVar (lit "BASE") ≠ refUndefinedVar (lit "BASE") (lit "foo") :=
  ⟨by decide,
    (suggestion_formatters_reference (fun _ => false) (lit "BASE") (lit "foo")).2.2.2.2
      (by decide)⟩

/-! ## The order of the operands of `FromAsCasing` -/

/-- The message of `FromAsCasing`, evaluated. -/
theorem call2_FromAsCasing (tab : Nat → Bool) (x y : GoString) :
    (RuleFromAsCasing tab).call2 x y
      = some (lit "'" ++ (y ++ (lit "' and '"
          ++ (x ++ lit "' keywords' casing do not match")))) := rfl

/-- Two lists that continue with `c` after a part without `c` have that part
in common. -/
theorem eq_of_append_cons_eq {c : Nat} :
    ∀ (x y r1 r2 : List Nat), c ∉ x → c ∉ y → x ++ c :: r1 = y ++ c :: r2 → x = y := by
  intro x
  induction x with
  | nil =>
    intro y r1 r2 _ hy h
    cases y with
    | nil => rfl
    | cons b y =>
      simp only [List.nil_append, List.cons_append, List.cons.injEq] at h
      exact absurd (by simp [h.1]) hy
  | cons a x ih =>
    intro y r1 r2 hx hy h
    cases y with
    | nil =>
      simp only [List.nil_append, List.cons_append, List.cons.injEq] at h
      exact absurd (by simp [h.1]) hx
    | cons b y =>
      simp only [List.cons_append, List.cons.injEq] at h
      rw [h.1, ih y r1 r2 (fun hm => hx (List.mem_cons_of_mem a hm))
        (fun hm => hy (List.mem_cons_of_mem b hm)) h.2]

/-- C11, as stated, fails: the empty string and the string `' and '` are
different, and the formatter of `FromAsCasing` returns the same message for
them in either order, whatever the tables. -/
theorem fromAsCasing_swap_equal :
    (fun tab => (RuleFromAsCasing tab).call2 (lit "") (lit "' and '"))
        = (fun tab => (RuleFromAsCasing tab).call2 (lit "' and '") (lit ""))
    ∧ (fun tab => (RuleFromAsCasing tab).call2 (lit "") (lit "' and '"))
        = (fun _ => some (lit "'' and '' and '' keywords' casing do not match"))
    ∧ lit "" ≠ lit "' and '" :=
  ⟨rfl, rfl, by decide⟩

/-- C11, amended: the formatter of `FromAsCasing` renders its second
parameter before its first; and for two different strings that have the same
length, or of which neither contains an apostrophe, the message changes when
they are swapped. -/
theorem fromAsCasing_swapped (tab : Nat → Bool) (x y : GoString) :
    (RuleFromAsCasing tab).call2 x y
      = some (lit "'" ++ y ++ lit "' and '" ++ x ++ lit "' keywords' casing do not match") ∧
    ((x.length = y.length ∨ (39 ∉ x ∧ 39 ∉ y)) → x ≠ y →
      (RuleFromAsCasing tab).call2 x y ≠ (RuleFromAsCasing tab).call2 y x) := by
  constructor
  · rw [call2_FromAsCasing]
    simp only [List.append_assoc]
  · intro hxy hne h
    rw [call2_FromAsCasing, call2_FromAsCasing, Option.some.injEq,
      List.append_cancel_left_eq] at h
    apply hne
    rcases hxy with hlen | ⟨hx, hy⟩
    · exact ((List.append_inj h hlen.symm).1).symm
    · have hS : lit "' and '" = 39 :: lit " and '" := rfl
      rw [hS] at h
      exact (eq_of_append_cons_eq y x _ _ hy hx h).symm

/-- The messages of `FromAsCasing` for `FROM` and `as` in the two orders. -/
theorem fromAsCasing_swapped_witness :
    (((lit "FROM").length = (lit "as").length ∨ (39 ∉ lit "FROM" ∧ 39 ∉ lit "as")) ∧
      lit "FROM" ≠ lit "as") ∧
    (RuleFromAsCasing (fun _ => false)).call2 (lit "FROM") (lit "as")
      = some (lit "'as' and 'FROM' keywords' casing do not match") ∧
    (RuleFromAsCasing (fun _ => false)).call2 (lit "FROM") (lit "as")
      ≠ (RuleFromAsCasing (fun _ => false)).call2 (lit "as") (lit "FROM") :=
  ⟨⟨by decide, by decide⟩,
    (fromAsCasing_swapped (fun _ => false) (lit "FROM") (lit "as")).1,
    (fromAsCasing_swapped (fun _ => false) (lit "FROM") (lit "as")).2 (by decide) (by decide)⟩

/-! ## Two rules with one message -/

/-- C12: with the empty suggestion `UndefinedVar` returns for every argument
the message that `UndefinedArg` returns for it, although the two descriptors
have different NumericIDs, 0011 and 0010, and different Names. -/
theorem undefinedVar_undefinedArg_same_message (tab : Nat → Bool) (a : GoString) :
    (RuleUndefinedVar tab).call2 a []
      = some (lit "Usage of undefined variable '$" ++ a ++ lit "'") ∧
    (RuleUndefinedArg tab).call1 a
      = some (lit "Usage of undefined variable '$" ++ a ++ lit "'") ∧
    (RuleUndefinedVar tab).call2 a [] = (RuleUndefinedArg tab).call1 a ∧
    (RuleUndefinedVar tab).NumericID = lit "0011" ∧
    (RuleUndefinedArg tab).NumericID = lit "0010" ∧
    (RuleUndefinedVar tab).NumericID ≠ (RuleUndefinedArg tab).NumericID ∧
    (RuleUndefinedVar tab).Name ≠ (RuleUndefinedArg tab).Name := by
  refine ⟨rfl, rfl, rfl, rfl, rfl, ?_, ?_⟩
  · show lit "0011" ≠ lit "0010"
    decide
  · show lit "UndefinedVar" ≠ lit "UndefinedArg"
    decide

/-! ## The three formatters that quote -/

/-- The message of `ReservedStageName`, evaluated. -/
theorem call1_ReservedStageName (tab : Nat → Bool) (s : GoString) :
    (RuleReservedStageName tab).call1 s
      = some (Quote tab s ++ lit " is reserved and should not be ") := rfl

/-- The message of `WorkdirRelativePath`, evaluated. -/
theorem call1_WorkdirRelativePath (tab : Nat → Bool) (s : GoString) :
    (RuleWorkdirRelativePath tab).call1 s
      = some (lit "Relative workdir "
          ++ (Quote tab s ++ lit " can have unexpected results if the base image changes")) :=
  rfl

/-- C13: for an argument made only of printable ASCII bytes other than the
double quote and the backslash, the three formatters that use `%q` put the
argument unchanged between two double quotes. -/
theorem quoting_formatters_plain (tab : Nat → Bool) (s : GoString)
    (h : ∀ b ∈ s, plainByte b) :
    (RuleDuplicateStageName tab).call1 s
      = some (lit "Duplicate stage name \"" ++ s ++ lit "\", stage names should be unique") ∧
    (RuleReservedStageName tab).call1 s
      = some (lit "\"" ++ s ++ lit "\" is reserved and should not be ") ∧
    (RuleWorkdirRelativePath tab).call1 s
      = some (lit "Relative workdir \"" ++ s
          ++ lit "\" can have unexpected results if the base image changes") := by
  refine ⟨?_, ?_, ?_⟩
  · rw [call1_DuplicateStageName, Quote_plain tab s _ h]
    rfl
  · rw [call1_ReservedStageName, Quote_plain tab s _ h]
    rfl
  · rw [call1_WorkdirRelativePath, Quote_plain tab s _ h]
    rfl

/-- The three quoting formatters at the argument `scratch`. -/
theorem quoting_formatters_plain_witness :
    (∀ b ∈ lit "scratch", plainByte b) ∧
    (RuleDuplicateStageName (fun _ => false)).call1 (lit "scratch")
      = some (lit "Duplicate stage name \"scratch\", stage names should be unique") ∧
    (RuleReservedStageName (fun _ => false)).call1 (lit "scratch")
      = some (lit "\"scratch\" is reserved and should not be ") ∧
    (RuleWorkdirRelativePath (fun _ => false)).call1 (lit "scratch")
      = some (lit "Relative workdir \"scratch\" can have unexpected results if the base image changes") :=
  ⟨by decide, quoting_formatters_plain (fun _ => false) (lit "scratch") (by decide)⟩

/-! ## The documentation links and the names -/

/-- C14: the URL of each of the fourteen descriptors is the common base
followed by a slug of lowercase letters and single hyphens that, without its
hyphens, is the lower-cased Name; and the fourteen URLs are pairwise
distinct. -/
theorem ruleset_url_from_name (tab : Nat → Bool) :
    (ruleset tab).length = 14 ∧
    List.Forall
      (fun d : RuleDescriptor =>
        ∃ slug, d.URL = urlBase ++ slug ∧ IsSlug slug ∧ dropHyphens slug = toLowerASCII d.Name)
      (ruleset tab) ∧
    ((ruleset tab).map RuleDescriptor.URL).Nodup := by
  have h : List.Forall
      (fun f : GoString × GoString × GoString × GoString × Bool =>
        f.2.2.2.1 = urlBase ++ slugOf f.2.2.2.1 ∧ IsSlug (slugOf f.2.2.2.1) ∧
          dropHyphens (slugOf f.2.2.2.1) = toLowerASCII f.2.1)
      ((ruleset tab).map RuleDescriptor.fields) := by
    rw [ruleset_fields]; decide
  have hu : ((ruleset tab).map RuleDescriptor.fields).map (fun f => f.2.2.2.1)
      = (ruleset tab).map RuleDescriptor.URL := by
    rw [List.map_map]; rfl
  refine ⟨rfl, ?_, ?_⟩
  · rw [List.forall_map_iff] at h
    exact h.imp (fun d hd => ⟨slugOf d.URL, hd⟩)
  · rw [← hu, ruleset_fields]; decide

end Linter
